import Mathlib

/-!
# Read-through cache interceptors of `connect-go-cache` (`cache.go`)

A shallow embedding of `cache.go` and the properties proved about it.

Modelling conventions

* A Go `string` / `[]byte` coming from or going to Redis is a `Bytes` value; procedure
  paths, header names and header values are Lean strings.
* A Go result pair `(T, error)` is an `Except GoError T`; the convention of Connect
  (a non-nil error means no usable response) is the one `cache.go` itself follows.
* The calls are protobuf calls: `req.Spec().Schema` is a method descriptor and the
  response message is a `proto.Message`, so the three type assertions of the file succeed.
* Everything that can change during a call is in a `World`: the state of the Redis
  server, the state of the handler chain, and the list of the commands that were sent
  through `cm.Client` (the trace).  A `UnaryFunc` is a state transformer on worlds.
* `proto.Marshal`, `proto.Unmarshal` (into a fresh `dynamicpb` message) and the Redis
  server are external: they are parameters (`Proto`, `RedisClient`).
-/

namespace Cache

/-! ## Go library values used by `cache.go` -/

/-- Raw bytes (`[]byte`, or the string Redis returns). -/
abbrev Bytes := List UInt8

/-- Go `time.Duration`: a number of nanoseconds. -/
abbrev Duration := Int

/-- Go `time.Second`. -/
def time.Second : Duration := 1000000000

/-- Go error values, told apart by dynamic type and text. -/
inductive GoError where
  /-- A `proto.RedisError` of go-redis (a string type). -/
  | RedisError (text : String)
  /-- The value `fmt.Errorf` builds. -/
  | errorString (text : String)
  /-- Any other error value (handler errors, network errors, codec errors). -/
  | other (text : String)
deriving DecidableEq, Repr

/-- Go `err.Error()`. -/
def GoError.Error : GoError → String
  | .RedisError t => t
  | .errorString t => t
  | .other t => t

/-- Go-redis `redis.Nil`, the sentinel of a missing key. -/
def redis.Nil : GoError := GoError.RedisError "redis: nil"

/-- Go `fmt.Errorf(format, err)` for a format `"<text>%v"`. -/
def fmt.Errorf (text : String) (err : GoError) : GoError :=
  GoError.errorString (text ++ err.Error)

/-- Go `strings.HasPrefix`. -/
def strings.HasPrefix (s pre : String) : Bool :=
  pre.data.isPrefixOf s.data

/-- Go `strings.TrimPrefix`: `s` without the leading `pre`, or `s` itself. -/
def strings.TrimPrefix (s pre : String) : String :=
  if strings.HasPrefix s pre then String.mk (s.data.drop pre.data.length) else s

/-- Go `http.Header`, a map from (canonical) header names to value lists.  The names
`cache.go` uses (`Cache-Control`, `X-Cache`, `X-Cache-Key`) are in canonical form, so the
canonicalisation done by `Get` and `Set` leaves them as they are. -/
structure Header where
  entries : List (String × List String)
deriving DecidableEq, Repr

/-- The empty header map. -/
def Header.empty : Header := ⟨[]⟩

/-- Go `Header.Get`: the first value under `key`, or `""`. -/
def Header.Get (h : Header) (key : String) : String :=
  match h.entries.lookup key with
  | some (v :: _) => v
  | _ => ""

/-- Go `Header.Set`: replace whatever is under `key` by the single value `value`. -/
def Header.Set (h : Header) (key value : String) : Header :=
  ⟨(key, [value]) :: h.entries.filter (fun kv => kv.1 != key)⟩

/-! ## Protobuf descriptors -/

/-- The enum `descriptorpb.MethodOptions_IdempotencyLevel`. -/
inductive IdempotencyLevel where
  | IDEMPOTENCY_UNKNOWN
  | NO_SIDE_EFFECTS
  | IDEMPOTENT
deriving DecidableEq, Repr

/-- The message `descriptorpb.MethodOptions` (the optional field the file reads). -/
structure MethodOptions where
  IdempotencyLevel : Option Cache.IdempotencyLevel
deriving DecidableEq, Repr

/-- Generated getter `GetIdempotencyLevel`: the default on a nil receiver or unset field. -/
def MethodOptions.GetIdempotencyLevel (x : Option MethodOptions) : Cache.IdempotencyLevel :=
  match x with
  | some o =>
    match o.IdempotencyLevel with
    | some l => l
    | none => Cache.IdempotencyLevel.IDEMPOTENCY_UNKNOWN
  | none => Cache.IdempotencyLevel.IDEMPOTENCY_UNKNOWN

/-- A `protoreflect.MessageDescriptor`, identified by the full name of the message. -/
structure MessageDescriptor where
  FullName : String
deriving DecidableEq, Repr

/-- A `protoreflect.MethodDescriptor`: its options (possibly a nil pointer) and output. -/
structure MethodDescriptor where
  Options : Option MethodOptions
  Output : MessageDescriptor
deriving DecidableEq, Repr

/-! ## Connect requests and responses -/

/-- Connect `connect.Spec`. -/
structure Spec where
  Procedure : String
  Schema : MethodDescriptor
deriving DecidableEq, Repr

/-- Connect `connect.AnyRequest` carrying a message of type `M`. -/
structure Request (M : Type) where
  Spec : Cache.Spec
  Header : Cache.Header
  Msg : M
deriving DecidableEq, Repr

/-- Connect `connect.AnyResponse` carrying a message of type `M`. -/
structure Response (M : Type) where
  Msg : M
  Header : Cache.Header
  Trailer : Cache.Header
deriving DecidableEq, Repr

/-- Connect `connect.NewResponse`: the message with empty header and trailer. -/
def NewResponse {M : Type} (m : M) : Response M :=
  { Msg := m, Header := Header.empty, Trailer := Header.empty }

/-- The functions `proto.Marshal` and `proto.Unmarshal` into a fresh dynamic message of
the given descriptor. -/
structure Proto (M : Type) where
  Marshal : M → Except GoError Bytes
  Unmarshal : MessageDescriptor → Bytes → Except GoError M

/-! ## The store and the world -/

/-- A command sent through `cm.Client`. -/
inductive StoreOp where
  | Get (key : String)
  | Set (key : String) (value : Bytes) (expiration : Duration)
deriving DecidableEq, Repr

/-- The behaviour of the Redis server behind `*redis.Client`, on a server state `S`. -/
structure RedisClient (S : Type) where
  /-- The command `GET key` and `.Result()`. -/
  Get : String → S → Except GoError Bytes × S
  /-- The command `SET key value` with an expiration and `.Err()`. -/
  Set : String → Bytes → Duration → S → Option GoError × S

/-- What a call can read and change. -/
structure World (S H : Type) where
  /-- State of the Redis server. -/
  server : S
  /-- State of the handler chain. -/
  handler : H
  /-- Commands sent through `cm.Client` so far, oldest first. -/
  trace : List StoreOp
deriving DecidableEq, Repr

/-- The call `cm.Client.Get(ctx, key).Result()` in a world. -/
def RedisClient.doGet {S H : Type} (c : RedisClient S) (key : String) (w : World S H) :
    Except GoError Bytes × World S H :=
  ((c.Get key w.server).1,
    { w with server := (c.Get key w.server).2, trace := w.trace ++ [StoreOp.Get key] })

/-- The call `cm.Client.Set(ctx, key, value, expiration).Err()` in a world. -/
def RedisClient.doSet {S H : Type} (c : RedisClient S) (key : String) (value : Bytes)
    (expiration : Duration) (w : World S H) : Option GoError × World S H :=
  ((c.Set key value expiration w.server).1,
    { w with server := (c.Set key value expiration w.server).2,
             trace := w.trace ++ [StoreOp.Set key value expiration] })

/-- Connect `connect.UnaryFunc`. -/
abbrev UnaryFunc (S H M : Type) :=
  Request M → World S H → Except GoError (Response M) × World S H

/-! ## `cache.go` -/

/-- The struct `CacheMiddleware`. -/
structure CacheMiddleware (S : Type) where
  Client : RedisClient S
  CacheTTL : Duration

/-- The constructor `NewCacheMiddleware`. -/
def NewCacheMiddleware {S : Type} (redisClient : RedisClient S) : CacheMiddleware S :=
  { Client := redisClient, CacheTTL := 5 * time.Second }

/-- The function `getMethodIdempotencyLevel`. -/
def getMethodIdempotencyLevel (methodDescriptor : MethodDescriptor) : IdempotencyLevel :=
  MethodOptions.GetIdempotencyLevel methodDescriptor.Options

/-- The function `getCacheKey`. -/
def getCacheKey {M : Type} (req : Request M) : String :=
  let trimmedProc := strings.TrimPrefix req.Spec.Procedure "/"
  "cache:" ++ trimmedProc

/-- The method `NewReadThroughInboundInterceptor`, applied to `next`. -/
def NewReadThroughInboundInterceptor {S H M : Type} (cm : CacheMiddleware S) (pb : Proto M)
    (next : UnaryFunc S H M) : UnaryFunc S H M :=
  fun req w =>
    let methodDescriptor := req.Spec.Schema
    if getMethodIdempotencyLevel methodDescriptor ≠ IdempotencyLevel.NO_SIDE_EFFECTS then
      next req w
    else if req.Header.Get "Cache-Control" = "no-cache" then
      next req w
    else
      let cacheKey := getCacheKey req
      match cm.Client.doGet cacheKey w with
      | (Except.error err, w1) =>
        if err = redis.Nil then next req w1 else next req w1
      | (Except.ok cachedData, w1) =>
        let messageDescriptor := methodDescriptor.Output
        match pb.Unmarshal messageDescriptor cachedData with
        | Except.error err =>
          (Except.error (fmt.Errorf "failed to unmarshal cached response: " err), w1)
        | Except.ok dynamicOutput =>
          let response := NewResponse dynamicOutput
          let response := { response with Header := response.Header.Set "X-Cache" "HIT" }
          let response := { response with Header := response.Header.Set "X-Cache-Key" cacheKey }
          (Except.ok response, w1)

/-- The method `NewReadThroughOutboundInterceptor`, applied to `next`. -/
def NewReadThroughOutboundInterceptor {S H M : Type} (cm : CacheMiddleware S) (pb : Proto M)
    (next : UnaryFunc S H M) : UnaryFunc S H M :=
  fun req w =>
    match next req w with
    | (Except.error err, w1) => (Except.error err, w1)
    | (Except.ok resp, w1) =>
      let methodDescriptor := req.Spec.Schema
      if getMethodIdempotencyLevel methodDescriptor ≠ IdempotencyLevel.NO_SIDE_EFFECTS then
        next req w1
      else
        let cacheKey := getCacheKey req
        match pb.Marshal resp.Msg with
        | Except.error marshalErr =>
          (Except.error (fmt.Errorf "failed to marshal response for caching: " marshalErr), w1)
        | Except.ok data =>
          match cm.Client.doSet cacheKey data cm.CacheTTL w1 with
          | (some err, w2) => (Except.error (fmt.Errorf "failed to set cache: " err), w2)
          | (none, w2) => (Except.ok resp, w2)

/-! ## Reference definition of the key -/

/-- Reference definition of the cache key, following the words of the specification:
strip a single leading path separator if present, then put the tag `cache:` in front. -/
def DeriveKey_spec (P : String) : String :=
  match P.data with
  | '/' :: rest => "cache:" ++ String.mk rest
  | _ => "cache:" ++ P

/-! ## Concrete calls, handlers, codec and store used to exercise the theorems -/

/-- A method descriptor with the given declared idempotency level and output `svc.HelloReply`. -/
def helloMethod (level : IdempotencyLevel) : MethodDescriptor :=
  { Options := some { IdempotencyLevel := some level },
    Output := { FullName := "svc.HelloReply" } }

/-- A request to procedure `P` with the given level, header entries and payload. -/
def mkReq (P : String) (level : IdempotencyLevel) (hdr : List (String × List String))
    (payload : String) : Request String :=
  { Spec := { Procedure := P, Schema := helloMethod level }, Header := ⟨hdr⟩, Msg := payload }

/-- A request to `/svc.Greeter/Hello`. -/
def helloReq (level : IdempotencyLevel) (hdr : List (String × List String))
    (payload : String) : Request String :=
  mkReq "/svc.Greeter/Hello" level hdr payload

/-- Wire encoding of a message with one string field numbered 1 (ASCII text shorter than
128 bytes): the tag byte `0x0a`, the length, the text.  The empty text has the empty encoding. -/
def helloMarshal (m : String) : Except GoError Bytes :=
  if m.data = [] then Except.ok []
  else if m.data.length < 128 then
    Except.ok (10 :: UInt8.ofNat m.data.length :: m.data.map (fun c => UInt8.ofNat c.toNat))
  else Except.error (GoError.other "proto: message too large for this codec")

/-- Decoder for `helloMarshal`; anything else is rejected. -/
def helloUnmarshal (_d : MessageDescriptor) (b : Bytes) : Except GoError String :=
  match b with
  | [] => Except.ok ""
  | t :: n :: rest =>
    if t = 10 ∧ n.toNat = rest.length then
      Except.ok (String.mk (rest.map (fun x => Char.ofNat x.toNat)))
    else Except.error (GoError.other "proto: cannot parse invalid wire-format data")
  | _ => Except.error (GoError.other "proto: cannot parse invalid wire-format data")

/-- The codec of the examples. -/
def helloProto : Proto String :=
  { Marshal := helloMarshal, Unmarshal := helloUnmarshal }

/-- A Redis server that keeps the entries in a list, newest first, and never fails. -/
def mapStore : RedisClient (List (String × Bytes)) :=
  { Get := fun key s =>
      match s.lookup key with
      | some v => (Except.ok v, s)
      | none => (Except.error redis.Nil, s),
    Set := fun key value _ s => (none, (key, value) :: s) }

/-- A Redis server that is down: every command fails. -/
def downStore : RedisClient (List (String × Bytes)) :=
  { Get := fun _ s => (Except.error (GoError.other "dial tcp: connection refused"), s),
    Set := fun _ _ _ s => (some (GoError.other "dial tcp: connection refused"), s) }

/-- A handler that always answers with the message `hi` and touches nothing. -/
def hiHandler : UnaryFunc (List (String × Bytes)) Nat String :=
  fun _ w => (Except.ok (NewResponse "hi"), w)

/-- A stateful handler: it counts its invocations, answers `hi` the first time and
`hi again` afterwards. -/
def countingHandler : UnaryFunc (List (String × Bytes)) Nat String :=
  fun _ w =>
    (Except.ok (NewResponse (if w.handler = 0 then "hi" else "hi again")),
      { w with handler := w.handler + 1 })

/-- A handler that always fails. -/
def failingHandler : UnaryFunc (List (String × Bytes)) Nat String :=
  fun _ w => (Except.error (GoError.other "unavailable"), w)

/-- The middleware of the examples: `NewCacheMiddleware` on the list store. -/
def helloCM : CacheMiddleware (List (String × Bytes)) := NewCacheMiddleware mapStore

/-- The middleware on the server that is down. -/
def downCM : CacheMiddleware (List (String × Bytes)) := NewCacheMiddleware downStore

/-- The cacheable call of the examples: `/svc.Greeter/Hello`, `NO_SIDE_EFFECTS`, no header. -/
def plainReq : Request String := helloReq IdempotencyLevel.NO_SIDE_EFFECTS [] ""

/-- The same call with another payload. -/
def otherReq : Request String := helloReq IdempotencyLevel.NO_SIDE_EFFECTS [] "other payload"

/-- The same call with the bypass directive `Cache-Control: no-cache`. -/
def bypassReq : Request String :=
  helloReq IdempotencyLevel.NO_SIDE_EFFECTS [("Cache-Control", ["no-cache"])] ""

/-- The same call with `Cache-Control: No-Cache`, which is not the bypass directive. -/
def upperReq : Request String :=
  helloReq IdempotencyLevel.NO_SIDE_EFFECTS [("Cache-Control", ["No-Cache"])] ""

/-- The call declared `IDEMPOTENT`. -/
def idempotentReq : Request String := helloReq IdempotencyLevel.IDEMPOTENT [] ""

/-- A store holding the encoding of the message `hi` under the key of the call. -/
def storeWithHi : List (String × Bytes) := [("cache:svc.Greeter/Hello", [10, 2, 104, 105])]

/-- A store holding bytes that are no encoding of the reply under the key of the call. -/
def storeCorrupted : List (String × Bytes) := [("cache:svc.Greeter/Hello", [255, 0])]

/-- The initial world: given store content, fresh handler, empty trace. -/
def world0 (s : List (String × Bytes)) : World (List (String × Bytes)) Nat :=
  { server := s, handler := 0, trace := [] }

/-! ## Key derivation -/

theorem HasPrefix_slash_cons (c : Char) (rest : List Char) :
    strings.HasPrefix (String.mk (c :: rest)) "/" = decide (c = '/') := by
  have h : ("/" : String).data = ['/'] := rfl
  simp only [strings.HasPrefix, h, List.isPrefixOf, Bool.and_true]
  rw [Bool.eq_iff_iff, beq_iff_eq, decide_eq_true_iff]
  exact eq_comm

theorem HasPrefix_slash_nil : strings.HasPrefix (String.mk []) "/" = false := by
  have h : ("/" : String).data = ['/'] := rfl
  simp [strings.HasPrefix, h, List.isPrefixOf]

theorem TrimPrefix_slash_cons (rest : List Char) :
    strings.TrimPrefix (String.mk ('/' :: rest)) "/" = String.mk rest := by
  have h : ("/" : String).data = ['/'] := rfl
  simp [strings.TrimPrefix, HasPrefix_slash_cons, h]

theorem TrimPrefix_of_not_HasPrefix (s pre : String) (h : strings.HasPrefix s pre = false) :
    strings.TrimPrefix s pre = s := by
  simp [strings.TrimPrefix, h]

theorem HasPrefix_slash_true (P : String) (h : strings.HasPrefix P "/" = true) :
    ∃ rest, P = String.mk ('/' :: rest) := by
  cases P with
  | mk d =>
    cases d with
    | nil => rw [HasPrefix_slash_nil] at h; exact absurd h (by decide)
    | cons c rest =>
      rw [HasPrefix_slash_cons] at h
      have hc : c = '/' := by simpa using h
      exact ⟨rest, by rw [hc]⟩

theorem cache_tag_append_inj (a b : String) (h : "cache:" ++ a = "cache:" ++ b) : a = b := by
  have h1 : ("cache:" ++ a).data = ("cache:" ++ b).data := by rw [h]
  rw [String.data_append, String.data_append] at h1
  exact String.ext (List.append_cancel_left h1)

theorem getCacheKey_eq {M : Type} (req : Request M) :
    getCacheKey req = "cache:" ++ strings.TrimPrefix req.Spec.Procedure "/" := rfl

theorem getCacheKey_eq_DeriveKey_spec {M : Type} (req : Request M) :
    getCacheKey req = DeriveKey_spec req.Spec.Procedure := by
  rw [getCacheKey_eq]
  cases hb : strings.HasPrefix req.Spec.Procedure "/" with
  | true =>
    obtain ⟨rest, hP⟩ := HasPrefix_slash_true _ hb
    rw [hP, TrimPrefix_slash_cons]
    rfl
  | false =>
    rw [TrimPrefix_of_not_HasPrefix _ _ hb]
    generalize req.Spec.Procedure = P at hb
    cases P with
    | mk d =>
      cases d with
      | nil => rfl
      | cons c rest =>
        rw [HasPrefix_slash_cons] at hb
        have hc : c ≠ '/' := by simpa using hb
        simp only [DeriveKey_spec]
        split
        · rename_i heq
          simp only [List.cons.injEq] at heq
          exact absurd heq.1 hc
        · rfl

/-- C3 (as stated, refuted): the procedure paths `/x` and `x` differ and have the same
cache key, so the key derivation is not injective on all strings. -/
theorem C3_counterexample :
    (mkReq "/x" IdempotencyLevel.NO_SIDE_EFFECTS [] "").Spec.Procedure
        ≠ (mkReq "x" IdempotencyLevel.NO_SIDE_EFFECTS [] "").Spec.Procedure ∧
      getCacheKey (mkReq "/x" IdempotencyLevel.NO_SIDE_EFFECTS [] "")
        = getCacheKey (mkReq "x" IdempotencyLevel.NO_SIDE_EFFECTS [] "") := by
  constructor
  · decide
  · rfl

theorem slash_append_eq (Q : String) : "/" ++ Q = String.mk ('/' :: Q.data) := by
  apply String.ext
  rw [String.data_append]
  rfl

/-- C3 (amended): two requests have the same cache key exactly when their procedure
paths are equal or one path has no leading `/` and the other is `/` followed by it.  So
every two different paths have different keys, also when only one of them starts with
`/`, except the pairs made of a path `P` without leading `/` and the path `/` followed by
`P`, which always share one key. -/
theorem C3_getCacheKey_collision_iff {M : Type} (r1 r2 : Request M) :
    getCacheKey r1 = getCacheKey r2 ↔
      (r1.Spec.Procedure = r2.Spec.Procedure ∨
        (strings.HasPrefix r2.Spec.Procedure "/" = false ∧
          r1.Spec.Procedure = "/" ++ r2.Spec.Procedure) ∨
        (strings.HasPrefix r1.Spec.Procedure "/" = false ∧
          r2.Spec.Procedure = "/" ++ r1.Spec.Procedure)) := by
  rw [getCacheKey_eq, getCacheKey_eq]
  constructor
  · intro hk
    have ht := cache_tag_append_inj _ _ hk
    cases h1 : strings.HasPrefix r1.Spec.Procedure "/" with
    | true =>
      obtain ⟨a, ha⟩ := HasPrefix_slash_true _ h1
      cases h2 : strings.HasPrefix r2.Spec.Procedure "/" with
      | true =>
        obtain ⟨b, hb⟩ := HasPrefix_slash_true _ h2
        rw [ha, hb, TrimPrefix_slash_cons, TrimPrefix_slash_cons] at ht
        have hab : a = b := congrArg String.data ht
        left
        rw [ha, hb, hab]
      | false =>
        rw [ha, TrimPrefix_slash_cons, TrimPrefix_of_not_HasPrefix _ _ h2] at ht
        right; left
        refine ⟨rfl, ?_⟩
        rw [ha, slash_append_eq, ← ht]
    | false =>
      cases h2 : strings.HasPrefix r2.Spec.Procedure "/" with
      | true =>
        obtain ⟨b, hb⟩ := HasPrefix_slash_true _ h2
        rw [hb, TrimPrefix_slash_cons, TrimPrefix_of_not_HasPrefix _ _ h1] at ht
        right; right
        refine ⟨rfl, ?_⟩
        rw [hb, slash_append_eq, ht]
      | false =>
        rw [TrimPrefix_of_not_HasPrefix _ _ h1, TrimPrefix_of_not_HasPrefix _ _ h2] at ht
        left
        exact ht
  · rintro (h | ⟨h2, h⟩ | ⟨h1, h⟩)
    · rw [h]
    · rw [h, slash_append_eq, TrimPrefix_slash_cons, TrimPrefix_of_not_HasPrefix _ _ h2]
    · rw [h, slash_append_eq, TrimPrefix_slash_cons, TrimPrefix_of_not_HasPrefix _ _ h1]

/-- Instances of C3 (amended): the paths `x` and `/y`, only one of which starts with
`/`, have different keys, and so have `/svc.Greeter/Hello` and `/svc.Greeter/Bye`. -/
theorem C3_getCacheKey_collision_iff_witness :
    getCacheKey (mkReq "x" IdempotencyLevel.NO_SIDE_EFFECTS [] "")
        ≠ getCacheKey (mkReq "/y" IdempotencyLevel.NO_SIDE_EFFECTS [] "") ∧
      getCacheKey (mkReq "/svc.Greeter/Hello" IdempotencyLevel.NO_SIDE_EFFECTS [] "")
        ≠ getCacheKey (mkReq "/svc.Greeter/Bye" IdempotencyLevel.NO_SIDE_EFFECTS [] "") :=
  ⟨fun h =>
      absurd ((C3_getCacheKey_collision_iff (mkReq "x" IdempotencyLevel.NO_SIDE_EFFECTS [] "")
        (mkReq "/y" IdempotencyLevel.NO_SIDE_EFFECTS [] "")).mp h) (by decide),
    fun h =>
      absurd ((C3_getCacheKey_collision_iff
        (mkReq "/svc.Greeter/Hello" IdempotencyLevel.NO_SIDE_EFFECTS [] "")
        (mkReq "/svc.Greeter/Bye" IdempotencyLevel.NO_SIDE_EFFECTS [] "")).mp h) (by decide)⟩

/-- C4: the cache key computed by `getCacheKey` is the reference key of the procedure
path alone (`cache:` followed by the path without one leading `/`), whatever the payload,
the headers and the method descriptor of the request; `/svc.Greeter/Hello` gives
`cache:svc.Greeter/Hello`, `//x` gives `cache:/x` and `x` gives `cache:x`. -/
theorem C4_getCacheKey_reference :
    (∀ (M : Type) (req : Request M), getCacheKey req = DeriveKey_spec req.Spec.Procedure) ∧
      (∀ (M : Type) (r1 r2 : Request M), r1.Spec.Procedure = r2.Spec.Procedure →
        getCacheKey r1 = getCacheKey r2) ∧
      (∀ level hdr payload,
        getCacheKey (mkReq "/svc.Greeter/Hello" level hdr payload) = "cache:svc.Greeter/Hello") ∧
      (∀ level hdr payload, getCacheKey (mkReq "//x" level hdr payload) = "cache:/x") ∧
      (∀ level hdr payload, getCacheKey (mkReq "x" level hdr payload) = "cache:x") := by
  refine ⟨fun M req => getCacheKey_eq_DeriveKey_spec req, ?_, ?_, ?_, ?_⟩
  · intro M r1 r2 h
    rw [getCacheKey_eq, getCacheKey_eq, h]
  · intro _ _ _; rfl
  · intro _ _ _; rfl
  · intro _ _ _; rfl

/-! ## The paths of the Inbound interceptor -/

section Paths

variable {S H M : Type}

theorem Inbound_not_NO_SIDE_EFFECTS (cm : CacheMiddleware S) (pb : Proto M)
    (next : UnaryFunc S H M) (req : Request M) (w : World S H)
    (hlevel : getMethodIdempotencyLevel req.Spec.Schema ≠ IdempotencyLevel.NO_SIDE_EFFECTS) :
    NewReadThroughInboundInterceptor cm pb next req w = next req w := by
  simp [NewReadThroughInboundInterceptor, hlevel]

theorem Inbound_bypass (cm : CacheMiddleware S) (pb : Proto M)
    (next : UnaryFunc S H M) (req : Request M) (w : World S H)
    (hbypass : req.Header.Get "Cache-Control" = "no-cache") :
    NewReadThroughInboundInterceptor cm pb next req w = next req w := by
  simp [NewReadThroughInboundInterceptor, hbypass]

theorem Inbound_get_error (cm : CacheMiddleware S) (pb : Proto M)
    (next : UnaryFunc S H M) (req : Request M) (w : World S H)
    (hlevel : getMethodIdempotencyLevel req.Spec.Schema = IdempotencyLevel.NO_SIDE_EFFECTS)
    (hbypass : req.Header.Get "Cache-Control" ≠ "no-cache") (err : GoError)
    (hget : (cm.Client.Get (getCacheKey req) w.server).1 = Except.error err) :
    NewReadThroughInboundInterceptor cm pb next req w
      = next req (cm.Client.doGet (getCacheKey req) w).2 := by
  simp [NewReadThroughInboundInterceptor, hlevel, hbypass, RedisClient.doGet, hget]

theorem Inbound_decode_error (cm : CacheMiddleware S) (pb : Proto M)
    (next : UnaryFunc S H M) (req : Request M) (w : World S H)
    (hlevel : getMethodIdempotencyLevel req.Spec.Schema = IdempotencyLevel.NO_SIDE_EFFECTS)
    (hbypass : req.Header.Get "Cache-Control" ≠ "no-cache") (cachedData : Bytes)
    (hget : (cm.Client.Get (getCacheKey req) w.server).1 = Except.ok cachedData)
    (err : GoError) (hdec : pb.Unmarshal req.Spec.Schema.Output cachedData = Except.error err) :
    NewReadThroughInboundInterceptor cm pb next req w
      = (Except.error (fmt.Errorf "failed to unmarshal cached response: " err),
          (cm.Client.doGet (getCacheKey req) w).2) := by
  simp [NewReadThroughInboundInterceptor, hlevel, hbypass, RedisClient.doGet, hget, hdec]

theorem Inbound_hit (cm : CacheMiddleware S) (pb : Proto M)
    (next : UnaryFunc S H M) (req : Request M) (w : World S H)
    (hlevel : getMethodIdempotencyLevel req.Spec.Schema = IdempotencyLevel.NO_SIDE_EFFECTS)
    (hbypass : req.Header.Get "Cache-Control" ≠ "no-cache") (cachedData : Bytes)
    (hget : (cm.Client.Get (getCacheKey req) w.server).1 = Except.ok cachedData)
    (m : M) (hdec : pb.Unmarshal req.Spec.Schema.Output cachedData = Except.ok m) :
    NewReadThroughInboundInterceptor cm pb next req w
      = (Except.ok { Msg := m,
                     Header := ⟨[("X-Cache-Key", [getCacheKey req]), ("X-Cache", ["HIT"])]⟩,
                     Trailer := ⟨[]⟩ },
          (cm.Client.doGet (getCacheKey req) w).2) := by
  have hne : ("X-Cache" != "X-Cache-Key") = true := by decide
  simp [NewReadThroughInboundInterceptor, hlevel, hbypass, RedisClient.doGet, hget, hdec,
    NewResponse, Header.Set, Header.empty, hne]

/-! ## The paths of the Outbound interceptor -/

theorem Outbound_next_error (cm : CacheMiddleware S) (pb : Proto M)
    (next : UnaryFunc S H M) (req : Request M) (w : World S H)
    (err : GoError) (w1 : World S H) (hnext : next req w = (Except.error err, w1)) :
    NewReadThroughOutboundInterceptor cm pb next req w = (Except.error err, w1) := by
  simp [NewReadThroughOutboundInterceptor, hnext]

theorem Outbound_not_NO_SIDE_EFFECTS (cm : CacheMiddleware S) (pb : Proto M)
    (next : UnaryFunc S H M) (req : Request M) (w : World S H)
    (hlevel : getMethodIdempotencyLevel req.Spec.Schema ≠ IdempotencyLevel.NO_SIDE_EFFECTS)
    (resp : Response M) (w1 : World S H) (hnext : next req w = (Except.ok resp, w1)) :
    NewReadThroughOutboundInterceptor cm pb next req w = next req w1 := by
  simp [NewReadThroughOutboundInterceptor, hnext, hlevel]

theorem Outbound_marshal_error (cm : CacheMiddleware S) (pb : Proto M)
    (next : UnaryFunc S H M) (req : Request M) (w : World S H)
    (hlevel : getMethodIdempotencyLevel req.Spec.Schema = IdempotencyLevel.NO_SIDE_EFFECTS)
    (resp : Response M) (w1 : World S H) (hnext : next req w = (Except.ok resp, w1))
    (err : GoError) (hmar : pb.Marshal resp.Msg = Except.error err) :
    NewReadThroughOutboundInterceptor cm pb next req w
      = (Except.error (fmt.Errorf "failed to marshal response for caching: " err), w1) := by
  simp [NewReadThroughOutboundInterceptor, hnext, hlevel, hmar]

theorem Outbound_set_error (cm : CacheMiddleware S) (pb : Proto M)
    (next : UnaryFunc S H M) (req : Request M) (w : World S H)
    (hlevel : getMethodIdempotencyLevel req.Spec.Schema = IdempotencyLevel.NO_SIDE_EFFECTS)
    (resp : Response M) (w1 : World S H) (hnext : next req w = (Except.ok resp, w1))
    (data : Bytes) (hmar : pb.Marshal resp.Msg = Except.ok data) (err : GoError)
    (hset : (cm.Client.Set (getCacheKey req) data cm.CacheTTL w1.server).1 = some err) :
    NewReadThroughOutboundInterceptor cm pb next req w
      = (Except.error (fmt.Errorf "failed to set cache: " err),
          (cm.Client.doSet (getCacheKey req) data cm.CacheTTL w1).2) := by
  simp [NewReadThroughOutboundInterceptor, hnext, hlevel, hmar, RedisClient.doSet, hset]

theorem Outbound_stored (cm : CacheMiddleware S) (pb : Proto M)
    (next : UnaryFunc S H M) (req : Request M) (w : World S H)
    (hlevel : getMethodIdempotencyLevel req.Spec.Schema = IdempotencyLevel.NO_SIDE_EFFECTS)
    (resp : Response M) (w1 : World S H) (hnext : next req w = (Except.ok resp, w1))
    (data : Bytes) (hmar : pb.Marshal resp.Msg = Except.ok data)
    (hset : (cm.Client.Set (getCacheKey req) data cm.CacheTTL w1.server).1 = none) :
    NewReadThroughOutboundInterceptor cm pb next req w
      = (Except.ok resp, (cm.Client.doSet (getCacheKey req) data cm.CacheTTL w1).2) := by
  simp [NewReadThroughOutboundInterceptor, hnext, hlevel, hmar, RedisClient.doSet, hset]

theorem Outbound_ok_inv (cm : CacheMiddleware S) (pb : Proto M)
    (next : UnaryFunc S H M) (req : Request M) (w : World S H)
    (hlevel : getMethodIdempotencyLevel req.Spec.Schema = IdempotencyLevel.NO_SIDE_EFFECTS)
    (R : Response M)
    (hout : (NewReadThroughOutboundInterceptor cm pb next req w).1 = Except.ok R) :
    ∃ w1 data, next req w = (Except.ok R, w1) ∧ pb.Marshal R.Msg = Except.ok data ∧
      (cm.Client.Set (getCacheKey req) data cm.CacheTTL w1.server).1 = none := by
  rcases hn : next req w with ⟨r, w1⟩
  cases r with
  | error e =>
    rw [Outbound_next_error cm pb next req w e w1 hn] at hout
    exact absurd hout (by simp)
  | ok resp =>
    cases hm : pb.Marshal resp.Msg with
    | error e =>
      rw [Outbound_marshal_error cm pb next req w hlevel resp w1 hn e hm] at hout
      exact absurd hout (by simp)
    | ok data =>
      cases hs : (cm.Client.Set (getCacheKey req) data cm.CacheTTL w1.server).1 with
      | some e =>
        rw [Outbound_set_error cm pb next req w hlevel resp w1 hn data hm e hs] at hout
        exact absurd hout (by simp)
      | none =>
        rw [Outbound_stored cm pb next req w hlevel resp w1 hn data hm hs] at hout
        have hR : resp = R := by simpa using hout
        subst hR
        exact ⟨w1, data, rfl, hm, hs⟩

end Paths

/-! ## The claims -/

section Claims

variable {S H M : Type}

/-- C1 (the code at the failing input): on a call declared `IDEMPOTENT`, with a handler
that counts its invocations, the handler answers `hi` without error when the Outbound
interceptor invokes it first; the interceptor then invokes it a second time and returns
that second answer, `hi again`, leaving the handler invoked twice. -/
theorem C1_outbound_returns_second_invocation :
    getMethodIdempotencyLevel (helloReq IdempotencyLevel.IDEMPOTENT [] "").Spec.Schema
        ≠ IdempotencyLevel.NO_SIDE_EFFECTS ∧
      countingHandler (helloReq IdempotencyLevel.IDEMPOTENT [] "") (world0 [])
        = (Except.ok (NewResponse "hi"), { server := [], handler := 1, trace := [] }) ∧
      NewReadThroughOutboundInterceptor (NewCacheMiddleware mapStore) helloProto countingHandler
          (helloReq IdempotencyLevel.IDEMPOTENT [] "") (world0 [])
        = (Except.ok (NewResponse "hi again"), { server := [], handler := 2, trace := [] }) ∧
      (NewResponse "hi again" : Response String) ≠ NewResponse "hi" := by
  refine ⟨by decide, rfl, rfl, by decide⟩

/-- C2 (as stated, refuted): a `NO_SIDE_EFFECTS` call that carries `Cache-Control: no-cache`
and whose handler succeeds; the Outbound interceptor sends a `SET` of the serialized
response, so the trace after it differs from the trace the handler left. -/
theorem C2_counterexample :
    (helloReq IdempotencyLevel.NO_SIDE_EFFECTS [("Cache-Control", ["no-cache"])] "").Header.Get
        "Cache-Control" = "no-cache" ∧
      hiHandler (helloReq IdempotencyLevel.NO_SIDE_EFFECTS [("Cache-Control", ["no-cache"])] "")
          (world0 [])
        = (Except.ok (NewResponse "hi"), world0 []) ∧
      (NewReadThroughOutboundInterceptor (NewCacheMiddleware mapStore) helloProto hiHandler
          (helloReq IdempotencyLevel.NO_SIDE_EFFECTS [("Cache-Control", ["no-cache"])] "")
          (world0 [])).2.trace
        = [StoreOp.Set "cache:svc.Greeter/Hello" [10, 2, 104, 105] 5000000000] ∧
      (NewReadThroughOutboundInterceptor (NewCacheMiddleware mapStore) helloProto hiHandler
          (helloReq IdempotencyLevel.NO_SIDE_EFFECTS [("Cache-Control", ["no-cache"])] "")
          (world0 [])).2.trace
        ≠ (hiHandler
          (helloReq IdempotencyLevel.NO_SIDE_EFFECTS [("Cache-Control", ["no-cache"])] "")
          (world0 [])).2.trace := by
  refine ⟨rfl, rfl, rfl, ?_⟩
  have h : (NewReadThroughOutboundInterceptor (NewCacheMiddleware mapStore) helloProto hiHandler
          (helloReq IdempotencyLevel.NO_SIDE_EFFECTS [("Cache-Control", ["no-cache"])] "")
          (world0 [])).2.trace
        = [StoreOp.Set "cache:svc.Greeter/Hello" [10, 2, 104, 105] 5000000000] := rfl
  rw [h]
  exact List.cons_ne_nil _ _

/-- C2 (amended): the Outbound interceptor does not consult the request headers.  On a
`NO_SIDE_EFFECTS` call that carries `Cache-Control: no-cache` and whose handler succeeded
with a response that serializes, it sends exactly one `SET` of the serialized bytes under
the cache key with the configured time-to-live, and returns the response of the handler
unmodified when that `SET` succeeds. -/
theorem C2_outbound_writes_despite_bypass (cm : CacheMiddleware S) (pb : Proto M)
    (next : UnaryFunc S H M) (req : Request M) (w w1 : World S H) (R : Response M)
    (data : Bytes)
    (hlevel : getMethodIdempotencyLevel req.Spec.Schema = IdempotencyLevel.NO_SIDE_EFFECTS)
    (_hbypass : req.Header.Get "Cache-Control" = "no-cache")
    (hnext : next req w = (Except.ok R, w1))
    (hmar : pb.Marshal R.Msg = Except.ok data) :
    (NewReadThroughOutboundInterceptor cm pb next req w).2
        = (cm.Client.doSet (getCacheKey req) data cm.CacheTTL w1).2 ∧
      (NewReadThroughOutboundInterceptor cm pb next req w).2.trace
        = w1.trace ++ [StoreOp.Set (getCacheKey req) data cm.CacheTTL] ∧
      ((cm.Client.Set (getCacheKey req) data cm.CacheTTL w1.server).1 = none →
        (NewReadThroughOutboundInterceptor cm pb next req w).1 = Except.ok R) := by
  cases hs : (cm.Client.Set (getCacheKey req) data cm.CacheTTL w1.server).1 with
  | some e =>
    rw [Outbound_set_error cm pb next req w hlevel R w1 hnext data hmar e hs]
    exact ⟨rfl, rfl, fun h => absurd h (by simp)⟩
  | none =>
    rw [Outbound_stored cm pb next req w hlevel R w1 hnext data hmar hs]
    exact ⟨rfl, rfl, fun _ => rfl⟩

/-- Witness of C2 (amended): the call `/svc.Greeter/Hello` with `Cache-Control: no-cache`,
the handler answering `hi`, the empty list store. -/
theorem C2_outbound_writes_despite_bypass_witness :
    getMethodIdempotencyLevel
        (helloReq IdempotencyLevel.NO_SIDE_EFFECTS [("Cache-Control", ["no-cache"])] "").Spec.Schema
        = IdempotencyLevel.NO_SIDE_EFFECTS ∧
      (helloReq IdempotencyLevel.NO_SIDE_EFFECTS [("Cache-Control", ["no-cache"])] "").Header.Get
        "Cache-Control" = "no-cache" ∧
      ((NewReadThroughOutboundInterceptor (NewCacheMiddleware mapStore) helloProto hiHandler
          (helloReq IdempotencyLevel.NO_SIDE_EFFECTS [("Cache-Control", ["no-cache"])] "")
          (world0 [])).2
        = ((NewCacheMiddleware mapStore).Client.doSet
            (getCacheKey
              (helloReq IdempotencyLevel.NO_SIDE_EFFECTS [("Cache-Control", ["no-cache"])] ""))
            [10, 2, 104, 105] (NewCacheMiddleware mapStore).CacheTTL (world0 [])).2 ∧
      (NewReadThroughOutboundInterceptor (NewCacheMiddleware mapStore) helloProto hiHandler
          (helloReq IdempotencyLevel.NO_SIDE_EFFECTS [("Cache-Control", ["no-cache"])] "")
          (world0 [])).2.trace
        = (world0 []).trace ++ [StoreOp.Set
            (getCacheKey
              (helloReq IdempotencyLevel.NO_SIDE_EFFECTS [("Cache-Control", ["no-cache"])] ""))
            [10, 2, 104, 105] (NewCacheMiddleware mapStore).CacheTTL] ∧
      (((NewCacheMiddleware mapStore).Client.Set
            (getCacheKey
              (helloReq IdempotencyLevel.NO_SIDE_EFFECTS [("Cache-Control", ["no-cache"])] ""))
            [10, 2, 104, 105] (NewCacheMiddleware mapStore).CacheTTL (world0 []).server).1 = none →
        (NewReadThroughOutboundInterceptor (NewCacheMiddleware mapStore) helloProto hiHandler
          (helloReq IdempotencyLevel.NO_SIDE_EFFECTS [("Cache-Control", ["no-cache"])] "")
          (world0 [])).1 = Except.ok (NewResponse "hi"))) :=
  ⟨rfl, rfl,
    C2_outbound_writes_despite_bypass (NewCacheMiddleware mapStore) helloProto hiHandler
      (helloReq IdempotencyLevel.NO_SIDE_EFFECTS [("Cache-Control", ["no-cache"])] "")
      (world0 []) (world0 []) (NewResponse "hi") [10, 2, 104, 105] rfl rfl rfl rfl⟩

/-- C5: round trip.  Assume that decoding the encoding of `R` gives `R` back and that the
store returns under a key what a successful `SET` just put there.  If the Outbound
interceptor returned the handler response `R` on a `NO_SIDE_EFFECTS` call, then on every
world with the resulting store an Inbound call for the same procedure path
(`NO_SIDE_EFFECTS`, no bypass header, any payload, any next stage) returns, without invoking
the next stage, a response with the message of `R` and the headers `X-Cache: HIT` and
`X-Cache-Key` equal to the key of the path. -/
theorem C5_round_trip (cm : CacheMiddleware S) (pb : Proto M)
    (next1 next2 : UnaryFunc S H M) (req1 req2 : Request M) (w w3 : World S H)
    (R : Response M)
    (hlevel1 : getMethodIdempotencyLevel req1.Spec.Schema = IdempotencyLevel.NO_SIDE_EFFECTS)
    (hlevel2 : getMethodIdempotencyLevel req2.Spec.Schema = IdempotencyLevel.NO_SIDE_EFFECTS)
    (hbypass2 : req2.Header.Get "Cache-Control" ≠ "no-cache")
    (hproc : req2.Spec.Procedure = req1.Spec.Procedure)
    (hcodec : ∀ data, pb.Marshal R.Msg = Except.ok data →
      pb.Unmarshal req2.Spec.Schema.Output data = Except.ok R.Msg)
    (hstore : ∀ key value ttl s, (cm.Client.Set key value ttl s).1 = none →
      (cm.Client.Get key (cm.Client.Set key value ttl s).2).1 = Except.ok value)
    (hout : (NewReadThroughOutboundInterceptor cm pb next1 req1 w).1 = Except.ok R)
    (hw3 : w3.server = (NewReadThroughOutboundInterceptor cm pb next1 req1 w).2.server) :
    ∃ resp, NewReadThroughInboundInterceptor cm pb next2 req2 w3
        = (Except.ok resp, (cm.Client.doGet (getCacheKey req2) w3).2) ∧
      resp.Msg = R.Msg ∧
      resp.Header.Get "X-Cache" = "HIT" ∧
      resp.Header.Get "X-Cache-Key" = DeriveKey_spec req1.Spec.Procedure := by
  obtain ⟨w1, data, hnext, hmar, hset⟩ := Outbound_ok_inv cm pb next1 req1 w hlevel1 R hout
  rw [Outbound_stored cm pb next1 req1 w hlevel1 R w1 hnext data hmar hset] at hw3
  have hkey : getCacheKey req2 = getCacheKey req1 := by
    rw [getCacheKey_eq, getCacheKey_eq, hproc]
  have hget : (cm.Client.Get (getCacheKey req2) w3.server).1 = Except.ok data := by
    rw [hw3, hkey]
    exact hstore _ _ _ _ hset
  refine ⟨_, Inbound_hit cm pb next2 req2 w3 hlevel2 hbypass2 data hget R.Msg (hcodec data hmar),
    rfl, ?_, ?_⟩
  · have hne : ("X-Cache-Key" == "X-Cache") = false := by decide
    simp [Header.Get, List.lookup, hne]
  · rw [← getCacheKey_eq_DeriveKey_spec, ← hkey]
    simp [Header.Get, List.lookup]

/-- Witness of C5: procedure `/svc.Greeter/Hello`, handler response `hi`, list store; the
second call has another payload and a handler that would fail. -/
theorem C5_round_trip_witness :
    (NewReadThroughOutboundInterceptor helloCM helloProto hiHandler plainReq (world0 [])).1
        = Except.ok (NewResponse "hi") ∧
      NewReadThroughInboundInterceptor helloCM helloProto failingHandler otherReq
          (world0 storeWithHi)
        = (Except.ok { Msg := "hi",
                       Header := ⟨[("X-Cache-Key", ["cache:svc.Greeter/Hello"]),
                                   ("X-Cache", ["HIT"])]⟩,
                       Trailer := ⟨[]⟩ },
            { server := storeWithHi, handler := 0,
              trace := [StoreOp.Get "cache:svc.Greeter/Hello"] }) ∧
      ∃ resp, NewReadThroughInboundInterceptor helloCM helloProto failingHandler otherReq
          (world0 storeWithHi)
          = (Except.ok resp, (helloCM.Client.doGet (getCacheKey otherReq) (world0 storeWithHi)).2) ∧
        resp.Msg = (NewResponse "hi" : Response String).Msg ∧
        resp.Header.Get "X-Cache" = "HIT" ∧
        resp.Header.Get "X-Cache-Key" = DeriveKey_spec plainReq.Spec.Procedure :=
  ⟨rfl, rfl,
    C5_round_trip helloCM helloProto hiHandler failingHandler plainReq otherReq (world0 [])
      (world0 storeWithHi) (NewResponse "hi") rfl rfl (by decide) rfl
      (by
        intro data h
        have hd : data = [10, 2, 104, 105] := by
          have h2 : (Except.ok [10, 2, 104, 105] : Except GoError Bytes) = Except.ok data := h
          injection h2 with h3
          exact h3.symm
        rw [hd]
        rfl)
      (by
        intro key value ttl s _
        simp [helloCM, NewCacheMiddleware, mapStore, List.lookup])
      rfl rfl⟩

/-- C6: side-effect safety gate.  On a call whose declared classification is not
`NO_SIDE_EFFECTS`, the Inbound interceptor is exactly the next stage, and the Outbound
interceptor is made of invocations of the next stage only: neither sends a `GET` or a
`SET`.  Hence, when the next stage itself leaves the store and the trace of store commands
as they are, so do both interceptors. -/
theorem C6_side_effect_gate (cm : CacheMiddleware S) (pb : Proto M)
    (next : UnaryFunc S H M) (req : Request M) (w : World S H)
    (hlevel : getMethodIdempotencyLevel req.Spec.Schema ≠ IdempotencyLevel.NO_SIDE_EFFECTS) :
    NewReadThroughInboundInterceptor cm pb next req w = next req w ∧
      NewReadThroughOutboundInterceptor cm pb next req w
        = (match next req w with
           | (Except.error err, w1) => (Except.error err, w1)
           | (Except.ok _, w1) => next req w1) ∧
      ((∀ r v, (next r v).2.server = v.server ∧ (next r v).2.trace = v.trace) →
        (NewReadThroughInboundInterceptor cm pb next req w).2.server = w.server ∧
        (NewReadThroughInboundInterceptor cm pb next req w).2.trace = w.trace ∧
        (NewReadThroughOutboundInterceptor cm pb next req w).2.server = w.server ∧
        (NewReadThroughOutboundInterceptor cm pb next req w).2.trace = w.trace) := by
  have hin := Inbound_not_NO_SIDE_EFFECTS cm pb next req w hlevel
  have hout : NewReadThroughOutboundInterceptor cm pb next req w
        = (match next req w with
           | (Except.error err, w1) => (Except.error err, w1)
           | (Except.ok _, w1) => next req w1) := by
    rcases hn : next req w with ⟨r, w1⟩
    cases r with
    | error e => exact Outbound_next_error cm pb next req w e w1 hn
    | ok resp => exact Outbound_not_NO_SIDE_EFFECTS cm pb next req w hlevel resp w1 hn
  refine ⟨hin, hout, ?_⟩
  intro hframe
  rw [hin]
  refine ⟨(hframe req w).1, (hframe req w).2, ?_⟩
  rw [hout]
  rcases hn : next req w with ⟨r, w1⟩
  have h1 := hframe req w
  rw [hn] at h1
  cases r with
  | error e => exact h1
  | ok resp =>
    have h2 := hframe req w1
    exact ⟨h2.1.trans h1.1, h2.2.trans h1.2⟩

/-- Witness of C6: the `IDEMPOTENT` call on a store that holds an entry under its key,
with the counting handler. -/
theorem C6_side_effect_gate_witness :
    getMethodIdempotencyLevel idempotentReq.Spec.Schema ≠ IdempotencyLevel.NO_SIDE_EFFECTS ∧
      NewReadThroughInboundInterceptor helloCM helloProto countingHandler idempotentReq
          (world0 storeWithHi)
        = (Except.ok (NewResponse "hi"), { server := storeWithHi, handler := 1, trace := [] }) ∧
      NewReadThroughOutboundInterceptor helloCM helloProto countingHandler idempotentReq
          (world0 storeWithHi)
        = (Except.ok (NewResponse "hi again"),
            { server := storeWithHi, handler := 2, trace := [] }) ∧
      (NewReadThroughInboundInterceptor helloCM helloProto countingHandler idempotentReq
          (world0 storeWithHi)).2.server = (world0 storeWithHi).server ∧
      (NewReadThroughInboundInterceptor helloCM helloProto countingHandler idempotentReq
          (world0 storeWithHi)).2.trace = (world0 storeWithHi).trace ∧
      (NewReadThroughOutboundInterceptor helloCM helloProto countingHandler idempotentReq
          (world0 storeWithHi)).2.server = (world0 storeWithHi).server ∧
      (NewReadThroughOutboundInterceptor helloCM helloProto countingHandler idempotentReq
          (world0 storeWithHi)).2.trace = (world0 storeWithHi).trace :=
  ⟨by decide,
    (C6_side_effect_gate helloCM helloProto countingHandler idempotentReq (world0 storeWithHi)
      (by decide)).1,
    (C6_side_effect_gate helloCM helloProto countingHandler idempotentReq (world0 storeWithHi)
      (by decide)).2.1,
    (C6_side_effect_gate helloCM helloProto countingHandler idempotentReq (world0 storeWithHi)
      (by decide)).2.2 (fun _ _ => ⟨rfl, rfl⟩)⟩

/-- C7: caller opt-out on the read path.  When `Cache-Control` of the request is exactly
`no-cache`, the Inbound interceptor is exactly the next stage, whatever the classification
and the store: no `GET`, no header added, the result (response or error) of the next stage
returned as it is.  The value `No-Cache` is not the directive: on a `NO_SIDE_EFFECTS` call
carrying it the store is queried, and a valid entry is served as a hit without invoking
the next stage. -/
theorem C7_read_bypass (cm : CacheMiddleware S) (pb : Proto M)
    (next : UnaryFunc S H M) (req : Request M) (w : World S H) :
    (req.Header.Get "Cache-Control" = "no-cache" →
        NewReadThroughInboundInterceptor cm pb next req w = next req w) ∧
      (getMethodIdempotencyLevel req.Spec.Schema = IdempotencyLevel.NO_SIDE_EFFECTS →
        req.Header.Get "Cache-Control" = "No-Cache" →
        ∀ cachedData m,
          (cm.Client.Get (getCacheKey req) w.server).1 = Except.ok cachedData →
          pb.Unmarshal req.Spec.Schema.Output cachedData = Except.ok m →
          NewReadThroughInboundInterceptor cm pb next req w
            = (Except.ok { Msg := m,
                           Header := ⟨[("X-Cache-Key", [getCacheKey req]),
                                       ("X-Cache", ["HIT"])]⟩,
                           Trailer := ⟨[]⟩ },
                (cm.Client.doGet (getCacheKey req) w).2)) := by
  refine ⟨fun hb => Inbound_bypass cm pb next req w hb, ?_⟩
  intro hlevel hupper cachedData m hget hdec
  have hnb : req.Header.Get "Cache-Control" ≠ "no-cache" := by
    rw [hupper]
    decide
  exact Inbound_hit cm pb next req w hlevel hnb cachedData hget m hdec

/-- Witness of C7: with `Cache-Control: no-cache` the call goes to the handler on a store
with a valid entry and on a store with a corrupted entry; with `Cache-Control: No-Cache`
the valid entry is served. -/
theorem C7_read_bypass_witness :
    bypassReq.Header.Get "Cache-Control" = "no-cache" ∧
      NewReadThroughInboundInterceptor helloCM helloProto countingHandler bypassReq
          (world0 storeWithHi)
        = countingHandler bypassReq (world0 storeWithHi) ∧
      NewReadThroughInboundInterceptor helloCM helloProto failingHandler bypassReq
          (world0 storeCorrupted)
        = failingHandler bypassReq (world0 storeCorrupted) ∧
      upperReq.Header.Get "Cache-Control" = "No-Cache" ∧
      NewReadThroughInboundInterceptor helloCM helloProto countingHandler upperReq
          (world0 storeWithHi)
        = (Except.ok { Msg := "hi",
                       Header := ⟨[("X-Cache-Key", [getCacheKey upperReq]),
                                   ("X-Cache", ["HIT"])]⟩,
                       Trailer := ⟨[]⟩ },
            (helloCM.Client.doGet (getCacheKey upperReq) (world0 storeWithHi)).2) :=
  ⟨rfl,
    (C7_read_bypass helloCM helloProto countingHandler bypassReq (world0 storeWithHi)).1 rfl,
    (C7_read_bypass helloCM helloProto failingHandler bypassReq (world0 storeCorrupted)).1 rfl,
    rfl,
    (C7_read_bypass helloCM helloProto countingHandler upperReq (world0 storeWithHi)).2
      rfl rfl [10, 2, 104, 105] "hi" rfl rfl⟩

/-- C8: read-path error isolation.  On a cacheable call (`NO_SIDE_EFFECTS`, no bypass
header), when the `GET` of the cache key reports `redis.Nil` or any other error, the
Inbound interceptor is exactly the next stage run after that `GET`: same response or
same handler error, nothing added, nothing of the store error.  Hence, when Inbound
returns an error, either the next stage was invoked and returned that very error, or the
`GET` found bytes whose decoding failed. -/
theorem C8_read_error_isolation (cm : CacheMiddleware S) (pb : Proto M)
    (next : UnaryFunc S H M) (req : Request M) (w : World S H)
    (hlevel : getMethodIdempotencyLevel req.Spec.Schema = IdempotencyLevel.NO_SIDE_EFFECTS)
    (hbypass : req.Header.Get "Cache-Control" ≠ "no-cache") :
    (∀ err, (cm.Client.Get (getCacheKey req) w.server).1 = Except.error err →
        NewReadThroughInboundInterceptor cm pb next req w
          = next req (cm.Client.doGet (getCacheKey req) w).2) ∧
      (∀ e, (NewReadThroughInboundInterceptor cm pb next req w).1 = Except.error e →
        ((∃ err, (cm.Client.Get (getCacheKey req) w.server).1 = Except.error err) ∧
          (next req (cm.Client.doGet (getCacheKey req) w).2).1 = Except.error e) ∨
        (∃ cachedData derr,
          (cm.Client.Get (getCacheKey req) w.server).1 = Except.ok cachedData ∧
          pb.Unmarshal req.Spec.Schema.Output cachedData = Except.error derr ∧
          e = fmt.Errorf "failed to unmarshal cached response: " derr)) := by
  refine ⟨fun err hget => Inbound_get_error cm pb next req w hlevel hbypass err hget, ?_⟩
  intro e he
  cases hget : (cm.Client.Get (getCacheKey req) w.server).1 with
  | error err =>
    rw [Inbound_get_error cm pb next req w hlevel hbypass err hget] at he
    exact Or.inl ⟨⟨err, rfl⟩, he⟩
  | ok cachedData =>
    cases hdec : pb.Unmarshal req.Spec.Schema.Output cachedData with
    | error derr =>
      rw [Inbound_decode_error cm pb next req w hlevel hbypass cachedData hget derr hdec] at he
      refine Or.inr ⟨cachedData, derr, rfl, hdec, ?_⟩
      have h2 : fmt.Errorf "failed to unmarshal cached response: " derr = e := by
        simpa using he
      exact h2.symm
    | ok m =>
      rw [Inbound_hit cm pb next req w hlevel hbypass cachedData hget m hdec] at he
      exact absurd he (by simp)

/-- Witness of C8: the cacheable call on a server that is down (the `GET` fails with a
network error) and on an empty store (the `GET` reports `redis.Nil`); both times the
result is the one of the handler. -/
theorem C8_read_error_isolation_witness :
    getMethodIdempotencyLevel plainReq.Spec.Schema = IdempotencyLevel.NO_SIDE_EFFECTS ∧
      plainReq.Header.Get "Cache-Control" ≠ "no-cache" ∧
      (downCM.Client.Get (getCacheKey plainReq) (world0 []).server).1
        = Except.error (GoError.other "dial tcp: connection refused") ∧
      NewReadThroughInboundInterceptor downCM helloProto hiHandler plainReq (world0 [])
        = hiHandler plainReq (downCM.Client.doGet (getCacheKey plainReq) (world0 [])).2 ∧
      NewReadThroughInboundInterceptor downCM helloProto hiHandler plainReq (world0 [])
        = (Except.ok (NewResponse "hi"),
            { server := [], handler := 0, trace := [StoreOp.Get "cache:svc.Greeter/Hello"] }) ∧
      (helloCM.Client.Get (getCacheKey plainReq) (world0 []).server).1 = Except.error redis.Nil ∧
      NewReadThroughInboundInterceptor helloCM helloProto failingHandler plainReq (world0 [])
        = failingHandler plainReq (helloCM.Client.doGet (getCacheKey plainReq) (world0 [])).2 :=
  ⟨rfl, by decide, rfl,
    (C8_read_error_isolation downCM helloProto hiHandler plainReq (world0 []) rfl
      (by decide)).1 _ rfl,
    rfl, rfl,
    (C8_read_error_isolation helloCM helloProto failingHandler plainReq (world0 []) rfl
      (by decide)).1 _ rfl⟩

/-- C9: a corrupted entry is a hard error.  On a cacheable call (`NO_SIDE_EFFECTS`, no
bypass header), when the store holds under the cache key bytes that do not decode as the
declared output message, the Inbound interceptor returns the error
`failed to unmarshal cached response: ...` and no response, in the world the `GET` left:
the next stage is not invoked, whatever it is. -/
theorem C9_corrupted_entry_is_error (cm : CacheMiddleware S) (pb : Proto M)
    (next : UnaryFunc S H M) (req : Request M) (w : World S H)
    (hlevel : getMethodIdempotencyLevel req.Spec.Schema = IdempotencyLevel.NO_SIDE_EFFECTS)
    (hbypass : req.Header.Get "Cache-Control" ≠ "no-cache") (cachedData : Bytes)
    (hget : (cm.Client.Get (getCacheKey req) w.server).1 = Except.ok cachedData)
    (derr : GoError)
    (hdec : pb.Unmarshal req.Spec.Schema.Output cachedData = Except.error derr) :
    NewReadThroughInboundInterceptor cm pb next req w
        = (Except.error (fmt.Errorf "failed to unmarshal cached response: " derr),
            (cm.Client.doGet (getCacheKey req) w).2) ∧
      (NewReadThroughInboundInterceptor cm pb next req w).2.handler = w.handler ∧
      ∀ other : UnaryFunc S H M,
        NewReadThroughInboundInterceptor cm pb other req w
          = NewReadThroughInboundInterceptor cm pb next req w := by
  have h := Inbound_decode_error cm pb next req w hlevel hbypass cachedData hget derr hdec
  refine ⟨h, ?_, ?_⟩
  · rw [h]
    rfl
  · intro other
    rw [h]
    exact Inbound_decode_error cm pb other req w hlevel hbypass cachedData hget derr hdec

/-- Witness of C9: corrupted bytes under `cache:svc.Greeter/Hello` for the procedure
`/svc.Greeter/Hello`; the counting handler stays at zero invocations. -/
theorem C9_corrupted_entry_is_error_witness :
    getCacheKey plainReq = "cache:svc.Greeter/Hello" ∧
      (helloCM.Client.Get (getCacheKey plainReq) (world0 storeCorrupted).server).1
        = Except.ok [255, 0] ∧
      helloProto.Unmarshal plainReq.Spec.Schema.Output [255, 0]
        = Except.error (GoError.other "proto: cannot parse invalid wire-format data") ∧
      (NewReadThroughInboundInterceptor helloCM helloProto countingHandler plainReq
          (world0 storeCorrupted)
        = (Except.error (fmt.Errorf "failed to unmarshal cached response: "
              (GoError.other "proto: cannot parse invalid wire-format data")),
            (helloCM.Client.doGet (getCacheKey plainReq) (world0 storeCorrupted)).2) ∧
      (NewReadThroughInboundInterceptor helloCM helloProto countingHandler plainReq
          (world0 storeCorrupted)).2.handler = (world0 storeCorrupted).handler ∧
      ∀ other : UnaryFunc (List (String × Bytes)) Nat String,
        NewReadThroughInboundInterceptor helloCM helloProto other plainReq
            (world0 storeCorrupted)
          = NewReadThroughInboundInterceptor helloCM helloProto countingHandler plainReq
            (world0 storeCorrupted)) :=
  ⟨rfl, rfl, rfl,
    C9_corrupted_entry_is_error helloCM helloProto countingHandler plainReq
      (world0 storeCorrupted) rfl (by decide) [255, 0] rfl
      (GoError.other "proto: cannot parse invalid wire-format data") rfl⟩

/-- C10: the write path of the Outbound interceptor on a `NO_SIDE_EFFECTS` call.
(i) When the next stage returns an error, that error is returned in the world the next
stage left: no `SET`.  (ii) When serializing the response fails, an error is returned in
that same world: no `SET`.  (iii) Otherwise exactly one `SET` of the serialized bytes is
sent under the cache key of the procedure path with the time-to-live `CacheTTL` of the
middleware; an error is returned when it fails, the response of the handler unmodified
when it succeeds.  So Outbound succeeds exactly when handler, serialization and `SET`
all succeed.  `NewCacheMiddleware` fixes `CacheTTL` at 5 seconds. -/
theorem C10_outbound_write_path (cm : CacheMiddleware S) (pb : Proto M)
    (next : UnaryFunc S H M) (req : Request M) (w : World S H)
    (hlevel : getMethodIdempotencyLevel req.Spec.Schema = IdempotencyLevel.NO_SIDE_EFFECTS) :
    (∀ err w1, next req w = (Except.error err, w1) →
        NewReadThroughOutboundInterceptor cm pb next req w = (Except.error err, w1)) ∧
      (∀ R w1 merr, next req w = (Except.ok R, w1) → pb.Marshal R.Msg = Except.error merr →
        NewReadThroughOutboundInterceptor cm pb next req w
          = (Except.error (fmt.Errorf "failed to marshal response for caching: " merr), w1)) ∧
      (∀ R w1 data, next req w = (Except.ok R, w1) → pb.Marshal R.Msg = Except.ok data →
        (NewReadThroughOutboundInterceptor cm pb next req w).2
          = (cm.Client.doSet (getCacheKey req) data cm.CacheTTL w1).2 ∧
        (NewReadThroughOutboundInterceptor cm pb next req w).2.trace
          = w1.trace ++ [StoreOp.Set (DeriveKey_spec req.Spec.Procedure) data cm.CacheTTL] ∧
        (∀ serr, (cm.Client.Set (getCacheKey req) data cm.CacheTTL w1.server).1 = some serr →
          (NewReadThroughOutboundInterceptor cm pb next req w).1
            = Except.error (fmt.Errorf "failed to set cache: " serr)) ∧
        ((cm.Client.Set (getCacheKey req) data cm.CacheTTL w1.server).1 = none →
          (NewReadThroughOutboundInterceptor cm pb next req w).1 = Except.ok R)) ∧
      ((∃ R, (NewReadThroughOutboundInterceptor cm pb next req w).1 = Except.ok R) ↔
        ∃ R w1 data, next req w = (Except.ok R, w1) ∧ pb.Marshal R.Msg = Except.ok data ∧
          (cm.Client.Set (getCacheKey req) data cm.CacheTTL w1.server).1 = none) ∧
      (∀ c : RedisClient S, (NewCacheMiddleware c).CacheTTL = 5 * time.Second ∧
        (NewCacheMiddleware c).CacheTTL = 5000000000) := by
  refine ⟨?_, ?_, ?_, ?_, ?_⟩
  · intro err w1 hn
    exact Outbound_next_error cm pb next req w err w1 hn
  · intro R w1 merr hn hm
    exact Outbound_marshal_error cm pb next req w hlevel R w1 hn merr hm
  · intro R w1 data hn hm
    rw [← getCacheKey_eq_DeriveKey_spec]
    cases hs : (cm.Client.Set (getCacheKey req) data cm.CacheTTL w1.server).1 with
    | some e =>
      rw [Outbound_set_error cm pb next req w hlevel R w1 hn data hm e hs]
      refine ⟨rfl, rfl, ?_, fun h => absurd h (by simp)⟩
      intro serr hserr
      have hes : e = serr := by simpa using hserr
      rw [hes]
    | none =>
      rw [Outbound_stored cm pb next req w hlevel R w1 hn data hm hs]
      exact ⟨rfl, rfl, fun serr h => absurd h (by simp), fun _ => rfl⟩
  · constructor
    · rintro ⟨R, hR⟩
      obtain ⟨w1, data, h1, h2, h3⟩ := Outbound_ok_inv cm pb next req w hlevel R hR
      exact ⟨R, w1, data, h1, h2, h3⟩
    · rintro ⟨R, w1, data, hn, hm, hs⟩
      exact ⟨R, by rw [Outbound_stored cm pb next req w hlevel R w1 hn data hm hs]⟩
  · intro c
    exact ⟨rfl, rfl⟩

/-- Witness of C10: the cacheable call with the handler answering `hi` on the list store
(one `SET` of the four bytes of `hi` under `cache:svc.Greeter/Hello` for 5 seconds, the
response returned), on the server that is down (the `SET` fails, an error is returned),
and with the failing handler (its error returned, no `SET`). -/
theorem C10_outbound_write_path_witness :
    getMethodIdempotencyLevel plainReq.Spec.Schema = IdempotencyLevel.NO_SIDE_EFFECTS ∧
      NewReadThroughOutboundInterceptor helloCM helloProto hiHandler plainReq (world0 [])
        = (Except.ok (NewResponse "hi"),
            { server := storeWithHi, handler := 0,
              trace := [StoreOp.Set "cache:svc.Greeter/Hello" [10, 2, 104, 105] 5000000000] }) ∧
      (NewReadThroughOutboundInterceptor helloCM helloProto hiHandler plainReq (world0 [])).2.trace
        = (world0 []).trace
          ++ [StoreOp.Set (DeriveKey_spec plainReq.Spec.Procedure) [10, 2, 104, 105]
                helloCM.CacheTTL] ∧
      (NewReadThroughOutboundInterceptor downCM helloProto hiHandler plainReq (world0 [])).1
        = Except.error (fmt.Errorf "failed to set cache: "
            (GoError.other "dial tcp: connection refused")) ∧
      NewReadThroughOutboundInterceptor helloCM helloProto failingHandler plainReq (world0 [])
        = (Except.error (GoError.other "unavailable"), world0 []) :=
  ⟨rfl, rfl,
    ((C10_outbound_write_path helloCM helloProto hiHandler plainReq (world0 []) rfl).2.2.1
      (NewResponse "hi") (world0 []) [10, 2, 104, 105] rfl rfl).2.1,
    ((C10_outbound_write_path downCM helloProto hiHandler plainReq (world0 []) rfl).2.2.1
      (NewResponse "hi") (world0 []) [10, 2, 104, 105] rfl rfl).2.2.1 _ rfl,
    (C10_outbound_write_path helloCM helloProto failingHandler plainReq (world0 []) rfl).1
      _ _ rfl⟩

end Claims

end Cache
